import Mathlib

/-
  Verification of the moi.js data-representation layer against its source.

  The definitions below are shallow embeddings of the TypeScript/JavaScript
  sources of the repository: hex codecs, the 32-byte identifier model, the
  operation and interaction codecs, and the interaction validator. JavaScript
  strings are Lean String values, byte arrays are List Nat with entries below
  256, JavaScript numbers used as amounts are Int, and absent (undefined or
  null) values are Option. Functions that can throw are embedded in Except.
  Where a module of the repository is not present under src (only its
  declaration files, tests or callers are), the definition is modelled from
  the spec and its doc comment says so.
-/

namespace MoiJs

/-! ## Hex primitives -/

/-- Hex digit test for the character class 0-9, a-f, A-F used by the hex
helpers of the source, expressed on the code point. -/
def isHexDigit (c : Char) : Bool :=
  (48 ≤ c.toNat && c.toNat ≤ 57) || (97 ≤ c.toNat && c.toNat ≤ 102) || (65 ≤ c.toNat && c.toNat ≤ 70)

/-- Numeric value of a hex digit; non-digits map to 0 (the JavaScript parseInt
of a malformed pair yields NaN, which a Uint8Array stores as 0; the call sites
below only reach this function after a hex check). -/
def hexDigitVal (c : Char) : Nat :=
  if 48 ≤ c.toNat && c.toNat ≤ 57 then c.toNat - 48
  else if 97 ≤ c.toNat && c.toNat ≤ 102 then c.toNat - 87
  else if 65 ≤ c.toNat && c.toNat ≤ 70 then c.toNat - 55
  else 0

/-- Whitespace test used to model the JavaScript String.trim call: space, tab,
line feed and carriage return (the whitespace forms that occur in practice). -/
def isJsSpace (c : Char) : Bool :=
  c.toNat = 32 || c.toNat = 9 || c.toNat = 10 || c.toNat = 13

/-- Removal of one leading 0x mark, modelling the replace of the regular
expression anchored at the start of the string in hexToBytes. -/
def strip0x : List Char → List Char
  | '0' :: 'x' :: rest => rest
  | other => other

/-- Both-ends whitespace trim, modelling String.trim. -/
def trimChars (l : List Char) : List Char :=
  ((l.dropWhile isJsSpace).reverse.dropWhile isJsSpace).reverse

/-- Pairwise hex parse: consumes two digits per byte and rejects an odd tail.
This is the loop of hexToBytes in packages/js-moi-identifiers/lib.cjs/utils.js. -/
def parseHexPairs : List Char → Option (List Nat)
  | [] => some []
  | c1 :: c2 :: rest => (parseHexPairs rest).map (fun bs => (hexDigitVal c1 * 16 + hexDigitVal c2) :: bs)
  | [_] => none

/-- hexToBytes from packages/js-moi-identifiers/lib.cjs/utils.js: strip one
leading 0x mark, trim whitespace, reject an odd length (the source throws), and
parse consecutive digit pairs. -/
def hexToBytes (str : String) : Option (List Nat) :=
  let hex := trimChars (strip0x str.toList)
  if hex.length % 2 ≠ 0 then none else parseHexPairs hex

/-- bytesToHex from packages/js-moi-identifiers/lib.cjs/utils.js: 0x mark
followed by two lowercase digits per byte. -/
def byteToHexChars (b : Nat) : List Char :=
  let digit := fun (n : Nat) => Char.ofNat (if n < 10 then 48 + n else 87 + n)
  [digit (b / 16 % 16), digit (b % 16)]

def bytesToHex (data : List Nat) : String :=
  ⟨'0' :: 'x' :: data.foldr (fun b acc => byteToHexChars b ++ acc) []⟩

/-- Modelled from the spec: the helper isHex of js-moi-utils (its module hex.js
is not under src). It mirrors isHexString from js-moi-utils/src.ts, which is
under src: the value must match 0x followed by hex digits, and when an expected
byte length is given the total string length must be 2 + 2 * length. -/
def isHexL (l : List Char) (len : Option Nat) : Bool :=
  match l with
  | c0 :: c1 :: ds =>
      c0 == '0' && c1 == 'x' && ds.all isHexDigit && (match len with
        | some n => l.length == 2 + 2 * n
        | none => true)
  | _ => false

def isHex (s : String) (len : Option Nat) : Bool := isHexL s.toList len

/-- Modelled from the spec: isValidAddress of js-moi-utils (its module
address.js is not under src). Per the spec an address is a structurally valid
identifier, a 0x-mark 32-byte hex string; an absent value is not an address. -/
def isValidAddress (s : Option String) : Bool :=
  match s with
  | some v => isHex v (some 32)
  | none => false

/-! ## Identifier model

The 32-byte tagged identifier of js-moi-identifiers. Byte 0 is the tag
(kind in the high nibble, version in the low nibble), byte 1 the flags,
bytes 2-3 the metadata, bytes 4-27 the fingerprint, bytes 28-31 the variant. -/

/-- Identifier kinds. The declaring module identifier-kind is not under src;
the values follow the declaration order of the TypeScript enum that every
in-src consumer relies on (maxIdentifierKind is Logic, and the kind support
table lists Participant, Asset, Logic). -/
def kindParticipant : Nat := 0

def kindAsset : Nat := 1

def kindLogic : Nat := 2

/-- IdentifierTag from packages/js-moi-identifiers (identifier-tag.js, under
src): wraps the tag byte. -/
structure IdentifierTag where
  value : Nat
deriving Repr, DecidableEq

/-- Kind of a tag: the high nibble, as in getKind of identifier-tag.js. -/
def IdentifierTag.getKind (t : IdentifierTag) : Nat := t.value / 16

/-- Version of a tag: the low nibble, as in getVersion of identifier-tag.js. -/
def IdentifierTag.getVersion (t : IdentifierTag) : Nat := t.value % 16

/-- Maximum supported version per kind, from the kindSupport map of
identifier-tag.js: version 0 for Participant, Asset and Logic; the source falls
back to 0 for unknown kinds. -/
def kindSupport (_kind : Nat) : Nat := 0

/-- IdentifierTag.validate from identifier-tag.js: rejects a kind above Logic
and a version above the supported maximum for the kind. -/
def IdentifierTag.validate (t : IdentifierTag) : Option String :=
  if t.getKind > kindLogic then some "Unsupported identifier kind."
  else if t.getVersion > kindSupport t.getKind then some "Unsupported identifier version."
  else none

/-- IdentifierTag constructor: throws (Except.error) when validate reports a
problem, as in identifier-tag.js. -/
def IdentifierTag.mk? (v : Nat) : Except String IdentifierTag :=
  match IdentifierTag.validate ⟨v⟩ with
  | some e => .error e
  | none => .ok ⟨v⟩

/-- flagMasks from packages/js-moi-identifiers/src.ts/flags.ts, keyed by the
tag byte: participant V0 and asset V0 map to 0b01111111, logic V0 to
0b01111000. All other tags are absent. -/
def flagMasks (tagValue : Nat) : Option Nat :=
  if tagValue = 16 * kindParticipant then some 127
  else if tagValue = 16 * kindLogic then some 120
  else if tagValue = 16 * kindAsset then some 127
  else none

/-- AssetId.validate from packages/js-moi-identifiers/src.ts/asset-id.ts, on a
byte array input: length check, tag kind check, then the flags check
(asset[1] & (flagMasks.get(tag.value) ?? 0)) !== 0. Constructing the tag can
itself throw for an unsupported tag byte, hence the Except layer. -/
def assetIdValidate (asset : List Nat) : Except String (Option String) :=
  if asset.length ≠ 32 then .ok (some "Invalid length. Expected a 32-byte identifier.")
  else
    match IdentifierTag.mk? (asset.getD 0 0) with
    | .error e => .error e
    | .ok tag =>
      if tag.getKind ≠ kindAsset then .ok (some "Invalid identifier kind. Expected a asset identifier.")
      else if (asset.getD 1 0) &&& ((flagMasks tag.value).getD 0) ≠ 0 then
        .ok (some "Invalid Flags. Unsupported flags for identifier")
      else .ok none

/-- LogicId.validate from packages/js-moi-identifiers/lib.cjs/utils.js (the
logic-id module): no length check, and the kind test compares against
IdentifierKind.Participant, returning the message about an asset identifier.
The embedding reproduces the source as written. -/
def logicIdValidate (value : List Nat) : Except String (Option String) :=
  match IdentifierTag.mk? (value.getD 0 0) with
  | .error e => .error e
  | .ok tag =>
    if tag.getKind ≠ kindParticipant then .ok (some "Invalid identifier kind. Expected a asset identifier.")
    else if (value.getD 1 0) &&& ((flagMasks tag.value).getD 0) ≠ 0 then
      .ok (some "Invalid Flags. Unsupported flags for identifier")
    else .ok none

/-- ParticipantId.validate from packages/js-moi-identifiers/src.ts/participant-id.ts.
The flags test of the source reads participant[1], an index access on the class
object rather than on its private byte array; in JavaScript that property is
undefined, and the bitwise AND coerces undefined to 0 via ToInt32. The
embedding keeps that behaviour: the left operand of the AND is 0. -/
def participantIdValidate (bytes : List Nat) : Except String (Option String) :=
  match IdentifierTag.mk? (bytes.getD 0 0) with
  | .error e => .error e
  | .ok tag =>
    match IdentifierTag.validate tag with
    | some e => .ok (some e)
    | none =>
      if tag.getKind ≠ kindParticipant then
        .ok (some "Invalid identifier kind. Expected a participant identifier.")
      else if (0 : Nat) &&& ((flagMasks tag.value).getD 0) ≠ 0 then
        .ok (some "Invalid participant identifier flags.")
      else .ok none

/-- ParticipantId constructor from participant-id.ts: rejects a byte length
other than 32, then throws when validate reports a problem. -/
def participantIdNew (value : List Nat) : Except String (List Nat) :=
  if value.length ≠ 32 then .error "Invalid byte length for participant identifier. Expected 32 bytes."
  else
    match participantIdValidate value with
    | .error e => .error e
    | .ok (some e) => .error e
    | .ok none => .ok value

/-- Identifier constructor from packages/js-moi-identifiers/lib.esm/identifier.js:
rejects any byte length other than 32. -/
def identifierNew (value : List Nat) : Except String (List Nat) :=
  if value.length ≠ 32 then .error "Invalid byte length for identifier. Expected 32 bytes."
  else .ok value

/-- Identifier.fromHex from identifier.js: rejects the value unless isHex with
expected byte length 32 accepts it, then decodes and constructs. The source
calls hexToBytes only after the isHex guard, so the decode cannot throw there;
the embedding keeps the impossible branch as an error. -/
def identifierFromHex (value : String) : Except String (List Nat) :=
  if !(isHex value (some 32)) then .error "Invalid hex value for identifier. Expected 32 bytes hex string."
  else
    match hexToBytes value with
    | some bs => identifierNew bs
    | none => .error "Invalid hex string"

/-! ### Variant accessors -/

/-- Big-endian 32-bit read of the first four entries, as DataView.getUint32
with false for littleEndian. -/
def beUint32 (bs : List Nat) : Nat :=
  bs.getD 0 0 * 16777216 + bs.getD 1 0 * 65536 + bs.getD 2 0 * 256 + bs.getD 3 0

/-- Little-endian 32-bit read of the first four entries, as DataView.getUint32
with true for littleEndian. -/
def leUint32 (bs : List Nat) : Nat :=
  bs.getD 0 0 + bs.getD 1 0 * 256 + bs.getD 2 0 * 65536 + bs.getD 3 0 * 16777216

/-- getVariantBytes of identifier.js: the slice from byte 28 on. -/
def identifierGetVariantBytes (bytes : List Nat) : List Nat := bytes.drop 28

/-- getVariant of identifier.js: big-endian uint32 over the variant bytes. -/
def identifierGetVariant (bytes : List Nat) : Nat :=
  beUint32 (identifierGetVariantBytes bytes)

/-- isVariant of identifier.js: true when every variant byte is zero. This is
what the source computes (variant.every of byte equal 0). -/
def identifierIsVariant (bytes : List Nat) : Bool :=
  (identifierGetVariantBytes bytes).all (· == 0)

/-- getVariant of participant-id.ts: little-endian uint32 over bytes 28-31
(the source passes true for littleEndian). -/
def participantGetVariant (bytes : List Nat) : Nat :=
  leUint32 (bytes.drop 28)

/-- isVariant of participant-id.ts: the negation of isNullBytes on the variant
slice. The helper isNullBytes of js-moi-utils is not under src; by its name and
every use it holds exactly when all bytes are zero. -/
def participantIsVariant (bytes : List Nat) : Bool :=
  !((bytes.drop 28).all (· == 0))

/-- Reading of claim C7 for isVariant, used to state its refutation: true
exactly when the variant bytes are not all zero. -/
def c7ClaimIsVariant (bytes : List Nat) : Bool :=
  !((bytes.drop 28).all (· == 0))

/-! ## Operation model

From packages/js-moi-utils/src.ts/operations.ts and the enums module of the
same package (both under src). -/

/-- OpType values from the enums module: the numbering of the declaration
order, starting at ParticipantCreate = 0. -/
def opParticipantCreate : Nat := 0

def opAccountConfigure : Nat := 1

def opAssetTransfer : Nat := 2

def opAssetCreate : Nat := 3

def opAssetApprove : Nat := 4

def opAssetRevoke : Nat := 5

def opAssetMint : Nat := 6

def opAssetBurn : Nat := 7

def opAssetLockup : Nat := 8

def opAssetRelease : Nat := 9

def opLogicDeploy : Nat := 10

def opLogicInvoke : Nat := 11

def opLogicEnlist : Nat := 12

/-- POLO schema trees as built by the polo-schema combinators used in the
source: leaf kinds, arrays, maps and structs of labelled fields. -/
inductive PoloSchema where
  | integer
  | string
  | bytes
  | boolean
  | arrayOf (elem : PoloSchema)
  | mapOf (keys values : PoloSchema)
  | struct (fields : List (String × PoloSchema))

/-- Operation payload as the user passes it: one record with every field of
the union optional, mirroring the duck typing of the JavaScript payload
objects. A missing field models undefined. -/
structure Payload where
  address : Option String := none
  keys_payload : Option (List (String × Int × Int)) := none
  amount : Option Int := none
  supply : Option Int := none
  standard : Option Int := none
  dimension : Option Int := none
  symbol : Option String := none
  is_stateful : Option Bool := none
  is_logical : Option Bool := none
  asset_id : Option String := none
  benefactor : Option String := none
  beneficiary : Option String := none
  timestamp : Option Int := none
  manifest : Option String := none
  logic_id : Option String := none
  callsite : Option String := none
  calldata : Option String := none
  interfaces : Option (List (String × String)) := none
deriving Repr, DecidableEq

/-- Wire-ready payload produced by a transform: the hex-string fields that the
transforms normalize are byte arrays here, interface objects are entry lists
(the Map built from Object.entries), and everything else is carried over. -/
structure PoloPayload where
  address : Option (List Nat) := none
  keys_payload : Option (List (String × Int × Int)) := none
  amount : Option Int := none
  supply : Option Int := none
  standard : Option Int := none
  dimension : Option Int := none
  symbol : Option String := none
  is_stateful : Option Bool := none
  is_logical : Option Bool := none
  asset_id : Option String := none
  benefactor : Option (List Nat) := none
  beneficiary : Option (List Nat) := none
  timestamp : Option Int := none
  manifest : Option (List Nat) := none
  logic_id : Option String := none
  callsite : Option String := none
  calldata : Option (List Nat) := none
  interfaces : Option (List (String × String)) := none
deriving Repr, DecidableEq

/-- Spread of the untouched fields of a payload into a wire payload: the
object spread of the transforms copies every field, and the byte-typed fields
are then overridden by the transform that owns them. Fields whose type changes
under normalization start absent here and are set by each transform. -/
def carryOver (p : Payload) : PoloPayload :=
  { keys_payload := p.keys_payload
    amount := p.amount
    supply := p.supply
    standard := p.standard
    dimension := p.dimension
    symbol := p.symbol
    is_stateful := p.is_stateful
    is_logical := p.is_logical
    asset_id := p.asset_id
    timestamp := p.timestamp
    logic_id := p.logic_id
    callsite := p.callsite
    interfaces := p.interfaces }

/-- Validation result shape of createInvalidResult: the violated field and the
message. The source also carries the offending value (value[field]); the
heterogeneous value is omitted from the embedding. -/
structure InvalidResult where
  field : String
  message : String
deriving Repr, DecidableEq

/-- Comparison payload.amount < 0 under JavaScript semantics: false when the
field is undefined (undefined < 0 is false). -/
def jsLtZero (v : Option Int) : Bool :=
  match v with
  | some a => decide (a < 0)
  | none => false

/-- Comparison value <= 0 under JavaScript semantics, false for undefined. -/
def jsLeZero (v : Option Int) : Bool :=
  match v with
  | some a => decide (a ≤ 0)
  | none => false

/-- isHex applied to a possibly absent field: undefined is not hex. -/
def jsIsHexOpt (v : Option String) : Bool :=
  match v with
  | some h => isHex h none
  | none => false

/-! ### Validators, one per descriptor, from operations.ts -/

def participantCreateValidator (p : Payload) : Option InvalidResult :=
  if !(isValidAddress p.address) then some ⟨"address", "Invalid address"⟩
  else if jsLtZero p.amount then some ⟨"amount", "Amount cannot be negative"⟩
  else none

def assetCreateValidator (p : Payload) : Option InvalidResult :=
  if jsLtZero p.supply then some ⟨"supply", "Supply cannot be negative"⟩
  else if !(match p.standard with
      | some 0 => true
      | some 1 => true
      | _ => false) then some ⟨"standard", "Invalid asset standard"⟩
  else if (match p.dimension with
      | some d => !(d == 0) && decide (d < 0)
      | none => false) then some ⟨"dimension", "Dimension cannot be negative"⟩
  else none

def assetSupplyValidator (p : Payload) : Option InvalidResult :=
  if jsLtZero p.amount then some ⟨"amount", "Amount cannot be negative"⟩
  else if !(jsIsHexOpt p.asset_id) then some ⟨"asset_id", "Invalid asset ID"⟩
  else none

def assetActionValidator (type : Nat) (p : Payload) : Option InvalidResult :=
  if p.benefactor.isSome && !(isValidAddress p.benefactor) then
    some ⟨"benefactor", "Invalid benefactor address"⟩
  else if !(isValidAddress p.beneficiary) then
    some ⟨"beneficiary", "Invalid beneficiary address"⟩
  else if (type == opAssetTransfer || type == opAssetApprove) && p.amount.isNone then
    some ⟨"amount", "Amount is required for transfer and approve operations"⟩
  else if (type == opAssetTransfer || type == opAssetApprove) && jsLtZero p.amount then
    some ⟨"amount", "Amount cannot be negative"⟩
  else if !(jsIsHexOpt p.asset_id) then some ⟨"asset_id", "Invalid asset ID"⟩
  else if type == opAssetApprove && p.timestamp.isNone then
    some ⟨"timestamp", "Timestamp is required for approve operation"⟩
  else none

def logicActionValidator (type : Nat) (p : Payload) : Option InvalidResult :=
  if type == opLogicDeploy && p.manifest.isNone then
    some ⟨"manifest", "Manifest is required for logic deploy operation"⟩
  else if type == opLogicDeploy && !(jsIsHexOpt p.manifest) then
    some ⟨"manifest", "Manifest must be a hex string"⟩
  else if (!(type == opLogicDeploy) || type == opLogicEnlist) && p.logic_id.isNone then
    some ⟨"logic_id", "Logic ID is required"⟩
  else if p.calldata.isSome && !(jsIsHexOpt p.calldata) then
    some ⟨"calldata", "Calldata must be a hex string"⟩
  else if p.callsite.isNone || p.callsite == some "" then
    some ⟨"callsite", "Callsite is required"⟩
  else none

/-! ### Transforms, from operations.ts; a thrown error is Except.error -/

def participantCreateTransform (p : Payload) : Except String PoloPayload :=
  match p.address with
  | none => .error "hexToBytes called with a missing value"
  | some a =>
    match hexToBytes a with
    | none => .error "Invalid hex string"
    | some bs => .ok { carryOver p with address := some bs }

def assetActionTransform (p : Payload) : Except String PoloPayload :=
  let benefactorVal : Except String (List Nat) :=
    match p.benefactor with
    | some h =>
      if isHex h none then
        match hexToBytes h with
        | some bs => .ok bs
        | none => .error "Invalid hex string"
      else .ok (List.replicate 32 0)
    | none => .ok (List.replicate 32 0)
  match benefactorVal with
  | .error e => .error e
  | .ok bf =>
    match p.beneficiary with
    | none => .error "hexToBytes called with a missing value"
    | some b =>
      match hexToBytes b with
      | none => .error "Invalid hex string"
      | some bb => .ok { carryOver p with benefactor := some bf, beneficiary := some bb }

/-- Optional calldata normalization shared by the logic transforms:
payload.calldata != null maps through hexToBytes, otherwise undefined. -/
def calldataToBytes (v : Option String) : Except String (Option (List Nat)) :=
  match v with
  | some c =>
    match hexToBytes c with
    | some cb => .ok (some cb)
    | none => .error "Invalid hex string"
  | none => .ok none

def logicDeployTransform (p : Payload) : Except String PoloPayload :=
  match p.manifest with
  | none => .error "Manifest is required for LogicDeploy operation"
  | some m =>
    match hexToBytes m with
    | none => .error "Invalid hex string"
    | some mb =>
      match calldataToBytes p.calldata with
      | .error e => .error e
      | .ok cd => .ok { carryOver p with manifest := some mb, calldata := cd, interfaces := p.interfaces }

def logicInvokeEnlistTransform (p : Payload) : Except String PoloPayload :=
  match p.logic_id with
  | none => .error "Logic ID is required for LogicEnlist and LogicInvoke operations"
  | some lid =>
    match calldataToBytes p.calldata with
    | .error e => .error e
    | .ok cd => .ok { carryOver p with logic_id := some lid, calldata := cd, interfaces := p.interfaces }

/-! ### Descriptors and the registry, from operations.ts -/

def logicPayloadSchema : PoloSchema :=
  .struct [("manifest", .bytes), ("logic_id", .string), ("callsite", .string),
    ("calldata", .bytes), ("interface", .mapOf .string .string)]

def participantCreateSchema : PoloSchema :=
  .struct [("address", .bytes),
    ("keys_payload", .arrayOf (.struct [("public_key", .bytes), ("weight", .integer), ("signature_algorithm", .integer)])),
    ("amount", .integer)]

def assetCreateSchema : PoloSchema :=
  .struct [("symbol", .string), ("supply", .integer), ("standard", .integer),
    ("dimension", .integer), ("is_stateful", .boolean), ("is_logical", .boolean),
    ("logic_payload", logicPayloadSchema)]

def assetSupplySchema : PoloSchema :=
  .struct [("asset_id", .string), ("amount", .integer)]

def assetActionSchema : PoloSchema :=
  .struct [("benefactor", .bytes), ("beneficiary", .bytes), ("asset_id", .string),
    ("amount", .integer), ("timestamp", .integer)]

def logicActionSchema : PoloSchema :=
  .struct [("manifest", .bytes), ("logic_id", .string), ("callsite", .string),
    ("calldata", .bytes), ("interfaces", .mapOf .string .string)]

/-- Descriptor of one operation type: schema, validator, optional transform. -/
structure IxOperationDescriptor where
  schema : PoloSchema
  validator : Payload → Option InvalidResult
  transform : Option (Payload → Except String PoloPayload)

/-- Registry ixOpDescriptor from operations.ts: the ten registered operation
types; every other type is absent. -/
def ixOpDescriptor (t : Nat) : Option IxOperationDescriptor :=
  if t = opParticipantCreate then
    some ⟨participantCreateSchema, participantCreateValidator, some participantCreateTransform⟩
  else if t = opAssetCreate then some ⟨assetCreateSchema, assetCreateValidator, none⟩
  else if t = opAssetMint then some ⟨assetSupplySchema, assetSupplyValidator, none⟩
  else if t = opAssetBurn then some ⟨assetSupplySchema, assetSupplyValidator, none⟩
  else if t = opAssetTransfer then
    some ⟨assetActionSchema, assetActionValidator opAssetTransfer, some assetActionTransform⟩
  else if t = opAssetApprove then
    some ⟨assetActionSchema, assetActionValidator opAssetApprove, some assetActionTransform⟩
  else if t = opAssetRelease then
    some ⟨assetActionSchema, assetActionValidator opAssetRelease, some assetActionTransform⟩
  else if t = opLogicDeploy then
    some ⟨logicActionSchema, logicActionValidator opLogicDeploy, some logicDeployTransform⟩
  else if t = opLogicInvoke then
    some ⟨logicActionSchema, logicActionValidator opLogicInvoke, some logicInvokeEnlistTransform⟩
  else if t = opLogicEnlist then
    some ⟨logicActionSchema, logicActionValidator opLogicEnlist, some logicInvokeEnlistTransform⟩
  else none

/-- Typed operation, as the TS union IxOperation: a type and its payload. -/
structure Operation where
  type : Nat
  payload : Payload
deriving Repr, DecidableEq

/-- Raw operation after encoding: the type and the serialized payload bytes. -/
structure RawOperation where
  type : Nat
  payload : List Nat
deriving Repr, DecidableEq

/-- transformPayload from operations.ts: look the descriptor up (throwing for
an unsupported type), then descriptor.transform?.(payload) ?? payload. The
value fed to the serializer is either the untouched payload (no transform) or
the transform result, captured by the sum. -/
def transformPayload (t : Nat) (p : Payload) : Except String (Payload ⊕ PoloPayload) :=
  match ixOpDescriptor t with
  | none => .error "Descriptor for operation type is not supported"
  | some d =>
    match d.transform with
    | some f => (f p).map Sum.inr
    | none => .ok (Sum.inl p)

/-- encodeOperation from operations.ts: descriptor lookup, transformPayload,
then serialization of the result against the descriptor schema. The POLO
serializer itself is external (js-polo); it enters as the polorize argument. -/
def encodeOperation (polorize : PoloSchema → Payload ⊕ PoloPayload → List Nat)
    (op : Operation) : Except String RawOperation :=
  match ixOpDescriptor op.type with
  | none => .error "Descriptor for operation type is not registered"
  | some d => (transformPayload op.type op.payload).map (fun data => ⟨op.type, polorize d.schema data⟩)

/-- validateOperation from operations.ts: descriptor lookup (throwing for an
unregistered type), then the descriptor validator. -/
def validateOperation (op : Operation) : Except String (Option InvalidResult) :=
  match ixOpDescriptor op.type with
  | none => .error "Descriptor for operation type is not registered"
  | some d => .ok (d.validator op.payload)

/-! ## Interaction validation

From the interaction module of js-moi-utils (under src as an unnamed compiled
file). The validator receives an arbitrary value, so the request type here is
loose: every field is optional and the array-typed fields can hold a non-array
value, mirroring what reaches the JavaScript function. -/

/-- Loose sender: only the address is read by validation. -/
structure SenderJs where
  address : Option String := none
  sequence_id : Option Int := none
  key_id : Option Int := none
deriving Repr, DecidableEq

/-- Loose participant entry: validation reads only the address. -/
structure IxParticipantJs where
  address : Option String := none
  lock_type : Option Nat := none
  notary : Option Bool := none
deriving Repr, DecidableEq

/-- Field that should be an array: either really an array or some other
value, which the Array.isArray checks of the source reject. -/
inductive JsArr (α : Type) where
  | notArray
  | arr (items : List α)
deriving Repr, DecidableEq

/-- Loose operation entry of a request: type and payload may be absent. -/
structure IxOperationJs where
  type : Option Nat := none
  payload : Option Payload := none
deriving Repr, DecidableEq

/-- Loose interaction request, the argument of validateIxRequest. -/
structure IxRequestJs where
  sender : Option SenderJs := none
  fuel_price : Option Int := none
  fuel_limit : Option Int := none
  payer : Option String := none
  participants : Option (JsArr IxParticipantJs) := none
  operations : Option (JsArr IxOperationJs) := none
deriving Repr, DecidableEq

/-- createInvalidResult from the interaction module: field and message (the
offending value carried by the source is omitted, as in InvalidResult). -/
def createInvalidResult (field message : String) : InvalidResult := ⟨field, message⟩

/-- Participant list of a request when the field holds an array, else empty. -/
def participantItems : Option (JsArr IxParticipantJs) → List IxParticipantJs
  | some (.arr xs) => xs
  | _ => []

/-- First invalid participant address found by the scan loop of the source.
The loop breaks on the first failure, so only the first invalid entry
matters. -/
def firstInvalidParticipant (ps : List IxParticipantJs) : Option InvalidResult :=
  ps.findSome? (fun p =>
    if !(isValidAddress p.address) then some (createInvalidResult "address" "Invalid participant address")
    else none)

/-- Operations loop of validateIxRequest, from index i: missing type, missing
payload, then validateOperation; a non-null validator result is wrapped with
the qualified operations[i] field path and stops the loop, as does a thrown
descriptor-lookup error. -/
def validateOpsFrom (i : Nat) : List IxOperationJs → Except String (Option InvalidResult)
  | [] => .ok none
  | op :: rest =>
    match op.type with
    | none => .ok (some (createInvalidResult "type" "Operation type is required"))
    | some t =>
      match op.payload with
      | none => .ok (some (createInvalidResult "payload" "Operation payload is required"))
      | some p =>
        match validateOperation ⟨t, p⟩ with
        | .error e => .error e
        | .ok none => validateOpsFrom (i + 1) rest
        | .ok (some r) =>
          .ok (some ⟨"operations[" ++ toString i ++ "]." ++ r.field,
            "Invalid operation payload at index " ++ toString i ++ ": " ++ r.message⟩)

/-- Operations section of validateIxRequest: required, must be an array, must
be non-empty, then the per-operation loop. -/
def validateIxOperationsPart (ix : IxRequestJs) : Except String (Option InvalidResult) :=
  match ix.operations with
  | none => .ok (some (createInvalidResult "operations" "Operations are required"))
  | some .notArray => .ok (some (createInvalidResult "operations" "Operations must be an array"))
  | some (.arr ops) =>
    if ops.length = 0 then .ok (some (createInvalidResult "operations" "Operations must have at least one operation"))
    else validateOpsFrom 0 ops

/-- validateIxRequest from the interaction module of js-moi-utils. The checks
run in source order. In the participants block the source computes the first
invalid-address error into a local variable and breaks out of the loop; the
return inside the loop is only reachable at the top of the following
iteration, which the break prevents, so the scanned error is never returned
and the block cannot change the outcome. The embedding keeps the dropped scan
to mirror the source. -/
def validateIxRequest (ix : IxRequestJs) : Except String (Option InvalidResult) :=
  match ix.sender with
  | none => .ok (some (createInvalidResult "sender" "Sender is required"))
  | some sender =>
    if !(isValidAddress sender.address) then
      .ok (some (createInvalidResult "address" "Invalid sender address"))
    else if ix.fuel_price.isNone then
      .ok (some (createInvalidResult "fuel_price" "Fuel price is required"))
    else if ix.fuel_limit.isNone then
      .ok (some (createInvalidResult "fuel_limit" "Fuel limit is required"))
    else if jsLtZero ix.fuel_price then
      .ok (some (createInvalidResult "fuel_price" "Fuel price must be greater than or equal to 0"))
    else if jsLeZero ix.fuel_limit then
      .ok (some (createInvalidResult "fuel_limit" "Fuel limit must be greater than or equal to 0"))
    else if ix.payer.isSome && !(isValidAddress ix.payer) then
      .ok (some (createInvalidResult "payer" "Invalid payer address"))
    else
      match ix.participants with
      | some .notArray => .ok (some (createInvalidResult "participants" "Participants must be an array"))
      | _ =>
        let _unreturned := firstInvalidParticipant (participantItems ix.participants)
        validateIxOperationsPart ix

/-- Argument of isValidIxRequest: either a value failing the typeof-object or
null test, or an object read as a loose request. -/
inductive JsValue where
  | nonObject
  | object (ix : IxRequestJs)

/-- isValidIxRequest from the interaction module: false for a non-object or
null argument, false when validateIxRequest throws (the try/catch swallows the
error), else true exactly on a null validation result. -/
def isValidIxRequest (v : JsValue) : Bool :=
  match v with
  | .nonObject => false
  | .object ix =>
    match validateIxRequest ix with
    | .error _ => false
    | .ok r => r.isNone

/-! ## Interaction assembly

gatherIxParticipants, gatherIxFunds and interaction from the same module.
These functions run on the typed InteractionRequest of the TS sources. The
JavaScript Map is embedded as an association list in insertion order whose set
operation overwrites the value in place, as Map.set does. Keys are the
possibly-undefined address strings. -/

/-- Typed sender of an interaction request. -/
structure Sender where
  address : String
  sequence_id : Int := 0
  key_id : Int := 0
deriving Repr, DecidableEq

/-- Fund entry: asset and amount, loose fields as they come from payloads. -/
structure IxFund where
  asset_id : Option String := none
  amount : Option Int := none
deriving Repr, DecidableEq

/-- Participant entry as assembled: address key, lock type, notary. -/
structure IxParticipant where
  address : Option String := none
  lock_type : Nat := 0
  notary : Bool := false
deriving Repr, DecidableEq

/-- Typed interaction request consumed by the gather functions. -/
structure InteractionRequest where
  sender : Sender
  payer : Option String := none
  fuel_price : Int := 0
  fuel_limit : Int := 0
  operations : List Operation := []
  participants : Option (List IxParticipant) := none
  funds : Option (List IxFund) := none
deriving Repr, DecidableEq

/-- Key of the participant and fund maps: a JavaScript string or undefined. -/
abbrev JsKey := Option String

/-- Map.has on the association-list embedding. -/
def mapHas {α : Type} (m : List (JsKey × α)) (k : JsKey) : Bool :=
  m.any (fun e => e.1 == k)

/-- Map.set: overwrite in place when the key exists (keeping its position),
else append, as a JavaScript Map keeps insertion order. -/
def mapSet {α : Type} (m : List (JsKey × α)) (k : JsKey) (v : α) : List (JsKey × α) :=
  if mapHas m k then m.map (fun e => if e.1 == k then (k, v) else e) else m ++ [(k, v)]

/-- Map.values in insertion order. -/
def mapValues {α : Type} (m : List (JsKey × α)) : List α := m.map (·.2)

/-- LockType.MutateLock from the enums module. -/
def lockMutate : Nat := 0

/-- Participant record the gather loop builds for an implicit address. -/
def mkMutParticipant (k : JsKey) : IxParticipant := ⟨k, lockMutate, false⟩

/-- Invariant of the implicit phase of the participant map: every entry holds
the mutate-lock record of its own key, which is what makes the overwriting
Map.set of the source observationally first-wins there. -/
def allMut (m : List (JsKey × IxParticipant)) : Prop :=
  ∀ e ∈ m, e.2 = mkMutParticipant e.1

/-- Switch body of the operation loop of gatherIxParticipants. The address
derived from an asset or logic identifier goes through the constructor and
getAddress of AssetId or LogicId; that derivation lives in modules not under
src, so it enters as the assetAddr and logicAddr arguments. -/
def gatherStep (assetAddr logicAddr : Option String → Option String)
    (m : List (JsKey × IxParticipant)) (op : Operation) : List (JsKey × IxParticipant) :=
  if op.type == opParticipantCreate then
    mapSet m op.payload.address ⟨op.payload.address, lockMutate, false⟩
  else if op.type == opAssetMint || op.type == opAssetBurn then
    mapSet m (assetAddr op.payload.asset_id) ⟨assetAddr op.payload.asset_id, lockMutate, false⟩
  else if op.type == opAssetTransfer then
    mapSet m op.payload.beneficiary ⟨op.payload.beneficiary, lockMutate, false⟩
  else if op.type == opLogicInvoke || op.type == opLogicEnlist then
    mapSet m (logicAddr op.payload.logic_id) ⟨logicAddr op.payload.logic_id, lockMutate, false⟩
  else m

/-- gatherIxParticipants: the map starts with the sender under mutate lock,
the payer is added when present, every operation contributes the address it
touches, and the declared participants are added only when their address is
not present yet. -/
def gatherIxParticipants (assetAddr logicAddr : Option String → Option String)
    (ix : InteractionRequest) : List IxParticipant :=
  mapValues
    ((ix.participants.getD []).foldl
      (fun m p => if mapHas m p.address then m else mapSet m p.address p)
      (ix.operations.foldl (gatherStep assetAddr logicAddr)
        (match ix.payer with
          | some p =>
            mapSet [(some ix.sender.address, ⟨some ix.sender.address, lockMutate, false⟩)]
              (some p) ⟨some p, lockMutate, false⟩
          | none => [(some ix.sender.address, ⟨some ix.sender.address, lockMutate, false⟩)])))

/-- Per-operation step of gatherIxFunds: transfer, mint and burn contribute
their asset and amount. -/
def gatherFundsStep (m : List (JsKey × IxFund)) (op : Operation) : List (JsKey × IxFund) :=
  if op.type == opAssetTransfer || op.type == opAssetMint || op.type == opAssetBurn then
    mapSet m op.payload.asset_id ⟨op.payload.asset_id, op.payload.amount⟩
  else m

/-- gatherIxFunds: scan the operations, then add each declared fund only when
its asset is not present yet. -/
def gatherIxFunds (ix : InteractionRequest) : List IxFund :=
  mapValues
    ((ix.funds.getD []).foldl
      (fun m f => if mapHas m f.asset_id then m else mapSet m f.asset_id ⟨f.asset_id, f.amount⟩)
      (ix.operations.foldl gatherFundsStep []))

/-- Request the interaction function passes on to encodeInteraction: the
original request with the gathered participants and funds filled in. The POLO
encoding of the envelope is external and not at issue in the claims. -/
def interactionAssembly (assetAddr logicAddr : Option String → Option String)
    (ix : InteractionRequest) : InteractionRequest :=
  { ix with
    participants := some (gatherIxParticipants assetAddr logicAddr ix)
    funds := some (gatherIxFunds ix) }

/-! ### Claim-side description of the assembly (for the refinement in C6) -/

/-- Insertion that keeps the first occurrence: used by the claim-side
description (each address inserted at most once, first occurrence wins). -/
def insertIfAbsent {α : Type} (m : List (JsKey × α)) (kv : JsKey × α) : List (JsKey × α) :=
  if mapHas m kv.1 then m else m ++ [kv]

/-- Address an operation structurally touches, per the claim: the new
participant address, the asset-derived address for mint and burn, the
beneficiary for transfer, the logic-derived address for invoke and enlist. -/
def specOpCandidate (assetAddr logicAddr : Option String → Option String)
    (op : Operation) : Option (JsKey × IxParticipant) :=
  if op.type == opParticipantCreate then
    some (op.payload.address, ⟨op.payload.address, lockMutate, false⟩)
  else if op.type == opAssetMint || op.type == opAssetBurn then
    some (assetAddr op.payload.asset_id, ⟨assetAddr op.payload.asset_id, lockMutate, false⟩)
  else if op.type == opAssetTransfer then
    some (op.payload.beneficiary, ⟨op.payload.beneficiary, lockMutate, false⟩)
  else if op.type == opLogicInvoke || op.type == opLogicEnlist then
    some (logicAddr op.payload.logic_id, ⟨logicAddr op.payload.logic_id, lockMutate, false⟩)
  else none

/-- Ordered candidate list of the claim: sender, payer, the addresses the
operations touch, then the declared participants. -/
def participantCandidates (assetAddr logicAddr : Option String → Option String)
    (ix : InteractionRequest) : List (JsKey × IxParticipant) :=
  (some ix.sender.address, ⟨some ix.sender.address, lockMutate, false⟩)
  :: ((match ix.payer with
        | some p => [(some p, (⟨some p, lockMutate, false⟩ : IxParticipant))]
        | none => [])
      ++ ix.operations.filterMap (specOpCandidate assetAddr logicAddr)
      ++ (ix.participants.getD []).map (fun p => (p.address, p)))

/-- Claim-side participants: fold the ordered candidates with first-wins
insertion. -/
def gatherIxParticipantsSpec (assetAddr logicAddr : Option String → Option String)
    (ix : InteractionRequest) : List IxParticipant :=
  mapValues ((participantCandidates assetAddr logicAddr ix).foldl insertIfAbsent [])

/-- Fund pair an operation contributes, per the claim: transfer, mint and
burn contribute their asset and amount. -/
def fundCandidate (op : Operation) : Option (JsKey × IxFund) :=
  if op.type == opAssetTransfer || op.type == opAssetMint || op.type == opAssetBurn then
    some (op.payload.asset_id, (⟨op.payload.asset_id, op.payload.amount⟩ : IxFund))
  else none

/-- Asset and amount pairs collected from transfer, mint and burn operations,
per the claim. -/
def fundCandidatesScanned (ix : InteractionRequest) : List (JsKey × IxFund) :=
  ix.operations.filterMap fundCandidate

/-- Claim-side funds: the scanned pairs, then the declared funds added only
for asset ids not already present, so scanned funds take precedence. -/
def gatherIxFundsSpec (ix : InteractionRequest) : List IxFund :=
  mapValues
    (((ix.funds.getD []).map (fun f => (f.asset_id, (⟨f.asset_id, f.amount⟩ : IxFund)))).foldl
      insertIfAbsent
      ((fundCandidatesScanned ix).foldl (fun m kv => mapSet m kv.1 kv.2) []))

/-! ## Manifest coder decode paths

The ManifestCoder implementation of js-moi-manifest is not under src: only its
declaration files, its tests and its callers are. The decode paths are
modelled from the spec, which fixes the contract that every decode path maps
the empty hex payload to null and otherwise deserializes through the external
POLO codec; the codec enters as a function argument. -/

/-- Decoded exception shape of decodeException: class name, message data, and
the call-stack trace lines. -/
structure ExceptionShape where
  className : String
  data : String
  trace : List String
deriving Repr, DecidableEq

/-- Modelled from the spec: ManifestCoder.decodeOutput (spec 4.2). The
implementation module of js-moi-manifest is absent from src. Per the spec the
empty payload 0x decodes to null; otherwise the schema is resolved for the
callsite or field list and the bytes are deserialized through POLO, which is
external and enters as arguments. -/
def decodeOutput {σ V : Type} (resolveSchema : σ → Option PoloSchema)
    (deserialize : PoloSchema → List Nat → Option V)
    (output : String) (callsiteOrFields : σ) : Option V :=
  if output = "0x" then none
  else
    match resolveSchema callsiteOrFields, hexToBytes output with
    | some s, some bs => deserialize s bs
    | _, _ => none

/-- Modelled from the spec: ManifestCoder.decodeException (spec 4.2). The
implementation module is absent from src. The empty payload 0x decodes to
null; otherwise the fixed three-field exception schema is deserialized through
the external POLO codec. -/
def decodeException (deserializeEx : List Nat → Option ExceptionShape)
    (error : String) : Option ExceptionShape :=
  if error = "0x" then none
  else
    match hexToBytes error with
    | some bs => deserializeEx bs
    | none => none

/-! ## Storage key derivation

generateStorageKey and the accessor classes live in the storage-key module of
js-moi-utils, which is not under src: only its re-export line, its declaration
and its callers (LogicDriver.getStorageKey) are. The derivation is modelled
from the spec: the key accumulates deterministically from the base slot over
the ordered accessors through a fixed byte-mixing scheme, and the result is a
fixed-width 32-byte value. -/

/-- Accessors of a storage path: named field, array index, length slot. -/
inductive Accessor where
  | property (label : String)
  | arrayIndex (index : Nat)
  | length
deriving Repr, DecidableEq

/-- Modelled from the spec: a fixed deterministic code for one accessor, the
per-step input of the byte-mixing scheme (spec 4.4 fixes only that the scheme
is a fixed deterministic function agreed with the execution engine). -/
def accessorCode : Accessor → Nat
  | .property label => 1 + label.toList.foldl (fun h c => (h * 131 + c.toNat) % 2 ^ 256) 7
  | .arrayIndex i => 2 + 3 * i
  | .length => 3

/-- Modelled from the spec: one mixing step of the running 256-bit key. -/
def mixKey (key : Nat) (acc : Accessor) : Nat :=
  (key * 257 + accessorCode acc) % 2 ^ 256

/-- Big-endian 32-byte image of a 256-bit value. -/
def natToBytes32 (key : Nat) : List Nat :=
  (List.range 32).map (fun i => key / 2 ^ (8 * (31 - i)) % 256)

/-- Modelled from the spec: generateStorageKey (spec 4.4), absent from src.
The base slot seeds the running key and each accessor mixes into it in order;
the result is the fixed-width 32-byte storage key. -/
def generateStorageKey (baseSlot : Nat) (accessors : List Accessor) : List Nat :=
  natToBytes32 (accessors.foldl mixKey (baseSlot % 2 ^ 256))

/-- LogicDriver.getStorageKey (under src): resolves the state element and the
accessor builder, then returns generateStorageKey of the builder base slot and
accessor list. The builder resolution is element lookup plus validation and
does not contribute to the key beyond these two values. -/
def logicDriverGetStorageKey (baseSlot : Nat) (accessors : List Accessor) : List Nat :=
  generateStorageKey baseSlot accessors

/-! ## Concrete inputs used by the theorems below -/

/-- A structurally valid address: the zero identifier as 32-byte hex. -/
def c5ValidAddress : String :=
  "0x0000000000000000000000000000000000000000000000000000000000000000"

/-- Failing input of C3: 32 bytes whose tag byte is 0x20, the Logic V0 tag. -/
def c3LogicBytes : List Nat := 32 :: List.replicate 31 0

/-- Failing input of C4: participant V0 tag with flags byte 0xFF. -/
def c4Bytes : List Nat := 0 :: 255 :: List.replicate 30 0

/-- Failing input of C5: a request valid in every respect except that its one
declared participant carries a non-address string. -/
def c5Ix : IxRequestJs :=
  { sender := some { address := some c5ValidAddress }
    fuel_price := some 1
    fuel_limit := some 100
    participants := some (JsArr.arr [{ address := some "0xzz" }])
    operations := some (JsArr.arr
      [{ type := some opParticipantCreate
         payload := some { address := some c5ValidAddress, amount := some 1 } }]) }

/-- Input of C7 with variant bytes all zero. -/
def c7Zero : List Nat := List.replicate 32 0

/-- Input of C7 whose variant bytes are 1, 0, 0, 0. -/
def c7One : List Nat := List.replicate 28 0 ++ [1, 0, 0, 0]

/-- Request on which validateIxRequest throws: its operation type has no
registered descriptor (AccountConfigure). -/
def c10ThrowIx : IxRequestJs :=
  { sender := some { address := some c5ValidAddress }
    fuel_price := some 1
    fuel_limit := some 100
    operations := some (JsArr.arr [{ type := some opAccountConfigure, payload := some {} }]) }

/-- Request that validates cleanly. -/
def c10GoodIx : IxRequestJs :=
  { sender := some { address := some c5ValidAddress }
    fuel_price := some 1
    fuel_limit := some 100
    operations := some (JsArr.arr
      [{ type := some opParticipantCreate
         payload := some { address := some c5ValidAddress, amount := some 1 } }]) }

/-- Well-formed 32-byte hex string used by the C8 witness. -/
def c8Hex : String :=
  "0x00112233445566778899aabbccddeeff00112233445566778899aabbccddeeff"

/-- Hex string decoding to two bytes, used by the C8 witness. -/
def c8Short : String := "0x0102"

/-- Serializer stub used by the C9 witness. -/
def c9Serializer : PoloSchema → Payload ⊕ PoloPayload → List Nat := fun _ _ => []

/-- Mint payload used by the C9 witness; AssetMint has no transform. -/
def c9MintPayload : Payload := { asset_id := some "0x0102", amount := some 5 }

/-! ## Theorems -/

/-- C1: for every schema resolution of the callsite or field list and every
POLO deserializer, decodeOutput of the empty hex payload 0x is null, and
decodeException of 0x is null, rather than an error or a zero value. -/
theorem c1_decode_empty_hex_null {σ V : Type} (resolveSchema : σ → Option PoloSchema)
    (deserialize : PoloSchema → List Nat → Option V) (callsiteOrFields : σ)
    (deserializeEx : List Nat → Option ExceptionShape) :
    decodeOutput resolveSchema deserialize "0x" callsiteOrFields = none
    ∧ decodeException deserializeEx "0x" = none := by
  exact ⟨rfl, rfl⟩

/-- C2: storage key derivation is a pure deterministic function of the base
slot and the accessor sequence: identical arguments give byte-identical keys,
also through LogicDriver.getStorageKey, and the key has fixed width 32. -/
theorem c2_storage_key_deterministic (b1 b2 : Nat) (a1 a2 : List Accessor)
    (hb : b1 = b2) (ha : a1 = a2) :
    generateStorageKey b1 a1 = generateStorageKey b2 a2
    ∧ logicDriverGetStorageKey b1 a1 = logicDriverGetStorageKey b2 a2
    ∧ (generateStorageKey b1 a1).length = 32 := by
  subst hb
  subst ha
  refine ⟨rfl, rfl, ?_⟩
  simp [generateStorageKey, natToBytes32]

theorem c2_storage_key_deterministic_witness :
    generateStorageKey 5 [Accessor.property "balances", Accessor.arrayIndex 3]
      = generateStorageKey 5 [Accessor.property "balances", Accessor.arrayIndex 3]
    ∧ logicDriverGetStorageKey 5 [Accessor.property "balances", Accessor.arrayIndex 3]
      = logicDriverGetStorageKey 5 [Accessor.property "balances", Accessor.arrayIndex 3]
    ∧ (generateStorageKey 5 [Accessor.property "balances", Accessor.arrayIndex 3]).length = 32 :=
  c2_storage_key_deterministic 5 5 _ _ rfl rfl

/-- C3, failing input: c3LogicBytes is a 32-byte identifier whose tag has kind
Logic (and a supported version), yet LogicId.validate rejects it with the kind
error, because the source compares the kind against Participant and even names
an asset identifier in the message; the claim, the class name and the
constructor message (Invalid logic identifier) require the Logic kind to be
the accepted one. -/
theorem c3_logic_validate_rejects_logic_kind :
    IdentifierTag.getKind ⟨c3LogicBytes.getD 0 0⟩ = kindLogic
    ∧ c3LogicBytes.length = 32
    ∧ logicIdValidate c3LogicBytes
        = .ok (some "Invalid identifier kind. Expected a asset identifier.") := by
  exact ⟨rfl, rfl, rfl⟩

/-- C4, failing input: c4Bytes has the participant V0 tag and flags byte 0xFF;
0xFF AND the supported mask of that tag differs from 0xFF, so the claim
requires construction to fail, yet the constructor succeeds: the flags check
of ParticipantId.validate reads an absent index property of the class object,
which JavaScript coerces to 0, so the check can never fire. -/
theorem c4_participant_flags_check_dead :
    participantIdNew c4Bytes = .ok c4Bytes
    ∧ c4Bytes.getD 1 0 = 255
    ∧ (flagMasks (c4Bytes.getD 0 0)).isSome = true
    ∧ c4Bytes.getD 1 0 &&& (flagMasks (c4Bytes.getD 0 0)).getD 0 ≠ c4Bytes.getD 1 0 := by
  refine ⟨rfl, rfl, rfl, ?_⟩
  decide

/-- C5, failing input: c5Ix is valid in every respect except that its single
declared participant has an invalid address, yet validateIxRequest returns
null; the claim (and the doc comment of the function itself) requires a
non-null result for an invalid participant address. The scan of the source
finds the bad entry but its error is dropped, see validateIxRequest. -/
theorem c5_invalid_participant_not_reported :
    validateIxRequest c5Ix = .ok none
    ∧ (participantItems c5Ix.participants).any (fun p => !(isValidAddress p.address)) = true
    ∧ firstInvalidParticipant (participantItems c5Ix.participants)
        = some (createInvalidResult "address" "Invalid participant address") := by
  exact ⟨rfl, rfl, rfl⟩

/-- C9: for every registered operation type, encodeOperation serializes
exactly the transformPayload image of the payload against the descriptor
schema, pairing it with the operation type; transformPayload applies the
descriptor transform when there is one and passes the payload through
unchanged when there is none, so normalization runs strictly before the
schema is applied. -/
theorem c9_transform_before_schema (polorize : PoloSchema → Payload ⊕ PoloPayload → List Nat)
    (t : Nat) (p : Payload) (d : IxOperationDescriptor) (h : ixOpDescriptor t = some d) :
    encodeOperation polorize ⟨t, p⟩
      = (transformPayload t p).map (fun data => ⟨t, polorize d.schema data⟩)
    ∧ (d.transform = none → transformPayload t p = .ok (Sum.inl p))
    ∧ (∀ f, d.transform = some f → transformPayload t p = (f p).map Sum.inr) := by
  refine ⟨?_, ?_, ?_⟩
  · simp [encodeOperation, h]
  · intro ht
    simp [transformPayload, h, ht]
  · intro f ht
    simp [transformPayload, h, ht]

theorem c9_transform_before_schema_witness :
    encodeOperation c9Serializer ⟨opAssetMint, c9MintPayload⟩
      = (transformPayload opAssetMint c9MintPayload).map
          (fun data => ⟨opAssetMint, c9Serializer assetSupplySchema data⟩)
    ∧ transformPayload opAssetMint c9MintPayload = .ok (Sum.inl c9MintPayload) := by
  have h := c9_transform_before_schema c9Serializer opAssetMint c9MintPayload
    ⟨assetSupplySchema, assetSupplyValidator, none⟩ rfl
  exact ⟨h.1, h.2.1 rfl⟩

/-- C10: isValidIxRequest is a total function of its argument; it is false on
any value that is not a non-null object, false whenever validateIxRequest
throws on the object (the exception is swallowed by the try/catch), and
otherwise true exactly when validateIxRequest returns null. -/
theorem c10_isValidIxRequest_total :
    isValidIxRequest JsValue.nonObject = false
    ∧ (∀ ix e, validateIxRequest ix = .error e → isValidIxRequest (JsValue.object ix) = false)
    ∧ (∀ ix r, validateIxRequest ix = .ok r →
        (isValidIxRequest (JsValue.object ix) = true ↔ r = none)) := by
  refine ⟨rfl, ?_, ?_⟩
  · intro ix e h
    simp [isValidIxRequest, h]
  · intro ix r h
    simp [isValidIxRequest, h, Option.isNone_iff_eq_none]

theorem c10_isValidIxRequest_total_witness :
    isValidIxRequest (JsValue.object c10ThrowIx) = false
    ∧ (isValidIxRequest (JsValue.object c10GoodIx) = true
        ↔ (none : Option InvalidResult) = none) :=
  ⟨c10_isValidIxRequest_total.2.1 c10ThrowIx "Descriptor for operation type is not registered" rfl,
   c10_isValidIxRequest_total.2.2 c10GoodIx none rfl⟩

/-! ### C7: variant accessors -/

/-- List of length four is four elements. -/
theorem listLen4Decomp {α : Type} (l : List α) (hl : l.length = 4) :
    ∃ a b c d, l = [a, b, c, d] := by
  rcases l with _ | ⟨a, _ | ⟨b, _ | ⟨c, _ | ⟨d, _ | ⟨e, t⟩⟩⟩⟩⟩ <;> simp_all

/-- C7, counterexample: on the all-zero identifier, the base Identifier
isVariant returns true although the variant bytes are all zero, where the
claim requires false; and on variant bytes 1,0,0,0 the ParticipantId
getVariant returns 1, the little-endian reading, not the big-endian 16777216
the claim requires. -/
theorem c7_counterexample :
    identifierIsVariant c7Zero ≠ c7ClaimIsVariant c7Zero
    ∧ participantGetVariant c7One ≠ beUint32 (c7One.drop 28) := by
  decide

/-- C7 amended: for every 32-byte identifier, getVariant of the base
Identifier reads bytes 28-31 as a big-endian uint32 while
ParticipantId.getVariant reads them little-endian (matching the little-endian
write of generateParticipantIdV0); isVariant of the base Identifier returns
true exactly when bytes 28-31 are all zero, while ParticipantId.isVariant
returns true exactly when they are not all zero. -/
theorem c7_variant_accessors (bytes : List Nat) (h : bytes.length = 32) :
    ∃ b0 b1 b2 b3, bytes.drop 28 = [b0, b1, b2, b3]
    ∧ identifierGetVariant bytes = b0 * 16777216 + b1 * 65536 + b2 * 256 + b3
    ∧ participantGetVariant bytes = b0 + b1 * 256 + b2 * 65536 + b3 * 16777216
    ∧ (identifierIsVariant bytes = true ↔ (b0 = 0 ∧ b1 = 0 ∧ b2 = 0 ∧ b3 = 0))
    ∧ (participantIsVariant bytes = true ↔ ¬(b0 = 0 ∧ b1 = 0 ∧ b2 = 0 ∧ b3 = 0)) := by
  have hl : (bytes.drop 28).length = 4 := by simp [h]
  obtain ⟨b0, b1, b2, b3, e⟩ := listLen4Decomp (bytes.drop 28) hl
  refine ⟨b0, b1, b2, b3, e, ?_, ?_, ?_, ?_⟩
  · simp [identifierGetVariant, identifierGetVariantBytes, e, beUint32]
  · simp [participantGetVariant, e, leUint32]
  · simp [identifierIsVariant, identifierGetVariantBytes, e]
  · simp [participantIsVariant, e]
    tauto

theorem c7_variant_accessors_witness :
    ∃ b0 b1 b2 b3, c7One.drop 28 = [b0, b1, b2, b3]
    ∧ identifierGetVariant c7One = b0 * 16777216 + b1 * 65536 + b2 * 256 + b3
    ∧ participantGetVariant c7One = b0 + b1 * 256 + b2 * 65536 + b3 * 16777216
    ∧ (identifierIsVariant c7One = true ↔ (b0 = 0 ∧ b1 = 0 ∧ b2 = 0 ∧ b3 = 0))
    ∧ (participantIsVariant c7One = true ↔ ¬(b0 = 0 ∧ b1 = 0 ∧ b2 = 0 ∧ b3 = 0)) :=
  c7_variant_accessors c7One (by decide)

/-! ### C8: identifier length invariant -/

/-- Hex digit code points are never whitespace. -/
theorem not_space_of_hexDigit {c : Char} (h : isHexDigit c = true) :
    isJsSpace c = false := by
  simp only [isHexDigit, Bool.or_eq_true, Bool.and_eq_true, decide_eq_true_eq] at h
  simp only [isJsSpace, Bool.or_eq_false_iff, decide_eq_false_iff_not]
  omega

/-- Leading whitespace removal does not touch a list of hex digits. -/
theorem dropWhile_space_of_allHex (l : List Char) (h : l.all isHexDigit = true) :
    l.dropWhile isJsSpace = l := by
  cases l with
  | nil => rfl
  | cons c t =>
    have hc : isHexDigit c = true := by
      simp [List.all_cons] at h
      exact h.1
    simp [List.dropWhile_cons, not_space_of_hexDigit hc]

/-- Trimming does not touch a list of hex digits. -/
theorem trimChars_of_allHex (l : List Char) (h : l.all isHexDigit = true) :
    trimChars l = l := by
  unfold trimChars
  rw [dropWhile_space_of_allHex l h]
  rw [dropWhile_space_of_allHex l.reverse (by simpa using h)]
  simp

/-- Pairwise parse succeeds on every even-length list, with half as many
bytes. -/
theorem parseHexPairs_even : ∀ (l : List Char), l.length % 2 = 0 →
    ∃ bs, parseHexPairs l = some bs ∧ 2 * bs.length = l.length := by
  intro l
  induction l using parseHexPairs.induct with
  | case1 =>
    intro _
    exact ⟨[], rfl, rfl⟩
  | case2 c1 c2 rest ih =>
    intro h
    simp only [List.length_cons] at h
    obtain ⟨bs, hbs, hlen⟩ := ih (by omega)
    refine ⟨(hexDigitVal c1 * 16 + hexDigitVal c2) :: bs, ?_, ?_⟩
    · simp [parseHexPairs, hbs]
    · simp only [List.length_cons]
      omega
  | case3 c =>
    intro h
    simp at h

/-- A string accepted by isHex with expected byte length 32 decodes to exactly
32 bytes. -/
theorem hexToBytes_of_isHex32 (s : String) (h : isHex s (some 32) = true) :
    ∃ bs, hexToBytes s = some bs ∧ bs.length = 32 := by
  unfold isHex at h
  unfold hexToBytes
  rcases e : s.toList with _ | ⟨c0, t⟩
  · rw [e] at h
    simp [isHexL] at h
  rcases t with _ | ⟨c1, ds⟩
  · rw [e] at h
    simp [isHexL] at h
  rw [e] at h
  simp only [isHexL, Bool.and_eq_true, beq_iff_eq] at h
  obtain ⟨⟨⟨h0, h1⟩, hall⟩, hlen⟩ := h
  subst h0
  subst h1
  have hds : ds.length = 64 := by
    simp only [List.length_cons] at hlen
    omega
  have hstrip : strip0x ('0' :: 'x' :: ds) = ds := rfl
  rw [hstrip, trimChars_of_allHex ds hall]
  obtain ⟨bs, hbs, hblen⟩ := parseHexPairs_even ds (by omega)
  refine ⟨bs, ?_, by omega⟩
  simp [hds, hbs]

/-- Constructed identifiers hold exactly 32 bytes. -/
theorem identifierNew_ok_length (v : List Nat) (id : List Nat)
    (h : identifierNew v = .ok id) : id.length = 32 := by
  unfold identifierNew at h
  split at h
  · exact absurd h (by simp)
  · next hlen =>
    cases h
    omega

/-- C8: Identifier.fromHex fails for every hex string whose decoded byte
length is not exactly 32 (and for any string the decoder throws on), succeeds
on every well-formed 32-byte hex string, and every identifier constructed by
fromHex or the constructor holds exactly 32 bytes. -/
theorem c8_fromHex_length_invariant (s : String) (value : List Nat) :
    (∀ bs, hexToBytes s = some bs → bs.length ≠ 32 → ∃ e, identifierFromHex s = .error e)
    ∧ (hexToBytes s = none → ∃ e, identifierFromHex s = .error e)
    ∧ (isHex s (some 32) = true → ∃ id, identifierFromHex s = .ok id ∧ id.length = 32)
    ∧ (∀ id, identifierFromHex s = .ok id → id.length = 32)
    ∧ (∀ id, identifierNew value = .ok id → id.length = 32) := by
  have hbad : isHex s (some 32) = false →
      identifierFromHex s = .error "Invalid hex value for identifier. Expected 32 bytes hex string." := by
    intro hh
    simp [identifierFromHex, hh]
  refine ⟨?_, ?_, ?_, ?_, fun id h => identifierNew_ok_length value id h⟩
  · intro bs hbs hne
    cases hh : isHex s (some 32) with
    | false => exact ⟨_, hbad hh⟩
    | true =>
      obtain ⟨bs2, hbs2, hlen2⟩ := hexToBytes_of_isHex32 s hh
      rw [hbs] at hbs2
      cases hbs2
      exact absurd hlen2 hne
  · intro hnone
    cases hh : isHex s (some 32) with
    | false => exact ⟨_, hbad hh⟩
    | true =>
      obtain ⟨bs2, hbs2, _⟩ := hexToBytes_of_isHex32 s hh
      rw [hnone] at hbs2
      cases hbs2
  · intro hh
    obtain ⟨bs, hbs, hlen⟩ := hexToBytes_of_isHex32 s hh
    refine ⟨bs, ?_, hlen⟩
    simp [identifierFromHex, hh, hbs, identifierNew, hlen]
  · intro id h
    unfold identifierFromHex at h
    split at h
    · exact absurd h (by simp)
    · split at h
      · exact identifierNew_ok_length _ _ h
      · exact absurd h (by simp)

theorem c8_fromHex_length_invariant_witness :
    (∃ id, identifierFromHex c8Hex = .ok id ∧ id.length = 32)
    ∧ (∃ e, identifierFromHex c8Short = .error e) :=
  ⟨(c8_fromHex_length_invariant c8Hex []).2.2.1 rfl,
   (c8_fromHex_length_invariant c8Short []).1 [1, 2] rfl (by decide)⟩

/-! ### C6: interaction assembly refinement -/

/-- Pointwise-identity map is the identity. -/
theorem map_eq_self_of {α : Type} {l : List α} {f : α → α} (h : ∀ x ∈ l, f x = x) :
    l.map f = l := by
  induction l with
  | nil => rfl
  | cons a t ih => simp_all

/-- Map.set on an absent key appends. -/
theorem mapSet_absent {α : Type} {m : List (JsKey × α)} {k : JsKey} {v : α}
    (h : mapHas m k = false) : mapSet m k v = m ++ [(k, v)] := by
  simp [mapSet, h]

/-- On a map whose entries all hold the mutate record of their key, Map.set of
the mutate record behaves as first-wins insertion: overwriting replaces a
value with itself. -/
theorem mapSet_mut_eq_insert {m : List (JsKey × IxParticipant)} {k : JsKey}
    (hm : allMut m) :
    mapSet m k (mkMutParticipant k) = insertIfAbsent m (k, mkMutParticipant k) := by
  by_cases hh : mapHas m k
  · simp only [mapSet, insertIfAbsent, hh, if_true]
    apply map_eq_self_of
    intro e he
    obtain ⟨k', v'⟩ := e
    by_cases hek : (k' == k) = true
    · have h1 : k' = k := eq_of_beq hek
      have h2 := hm (k', v') he
      simp only [mkMutParticipant] at h2
      subst h1
      simp [hek, h2, mkMutParticipant]
    · simp [hek]
  · simp [mapSet, insertIfAbsent, hh]

/-- First-wins insertion of a mutate record preserves the invariant. -/
theorem allMut_insert {m : List (JsKey × IxParticipant)} {k : JsKey} (hm : allMut m) :
    allMut (insertIfAbsent m (k, mkMutParticipant k)) := by
  unfold insertIfAbsent
  split
  · exact hm
  · intro e he
    rcases List.mem_append.mp he with h1 | h2
    · exact hm e h1
    · simp at h2
      subst h2
      rfl

/-- A candidate produced by the claim-side operation scan always carries the
mutate record of its key. -/
theorem specOpCandidate_mut {a l : Option String → Option String} {op : Operation}
    {kv : JsKey × IxParticipant} (h : specOpCandidate a l op = some kv) :
    kv.2 = mkMutParticipant kv.1 := by
  unfold specOpCandidate at h
  split_ifs at h <;> (injection h with h2; subst h2; rfl)

/-- The switch body of the gather loop is exactly Map.set of the claim-side
candidate, when there is one. -/
theorem gatherStep_eq (a l : Option String → Option String)
    (m : List (JsKey × IxParticipant)) (op : Operation) :
    gatherStep a l m op = (match specOpCandidate a l op with
      | some kv => mapSet m kv.1 kv.2
      | none => m) := by
  unfold gatherStep specOpCandidate
  split_ifs <;> rfl

/-- Over a map satisfying the invariant, the operation loop of the source
equals the first-wins fold over the claim-side candidates, and the invariant
is preserved. -/
theorem foldl_gatherStep_eq (a l : Option String → Option String) :
    ∀ (ops : List Operation) (m : List (JsKey × IxParticipant)), allMut m →
      ops.foldl (gatherStep a l) m
        = (ops.filterMap (specOpCandidate a l)).foldl insertIfAbsent m
      ∧ allMut (ops.foldl (gatherStep a l) m) := by
  intro ops
  induction ops with
  | nil => exact fun m hm => ⟨rfl, hm⟩
  | cons op rest ih =>
    intro m hm
    have hstep := gatherStep_eq a l m op
    cases hc : specOpCandidate a l op with
    | none =>
      rw [hc] at hstep
      refine ⟨?_, ?_⟩
      · rw [List.foldl_cons, hstep, (ih m hm).1]
        simp [List.filterMap_cons, hc]
      · rw [List.foldl_cons, hstep]
        exact (ih m hm).2
    | some kv =>
      rw [hc] at hstep
      have hkv := specOpCandidate_mut hc
      have heta : (kv.1, mkMutParticipant kv.1) = kv := by
        rw [← hkv]
      have hset : mapSet m kv.1 kv.2 = insertIfAbsent m kv := by
        conv_lhs => rw [hkv]
        rw [mapSet_mut_eq_insert hm, heta]
      have hmut : allMut (mapSet m kv.1 kv.2) := by
        rw [hset, ← heta]
        exact allMut_insert hm
      refine ⟨?_, ?_⟩
      · rw [List.foldl_cons, hstep, (ih _ hmut).1, hset]
        simp [List.filterMap_cons, hc]
      · rw [List.foldl_cons, hstep]
        exact (ih _ hmut).2

/-- The declared phase of the source, skip-when-present then Map.set, is the
first-wins fold. -/
theorem foldl_skipOrSet_eq {α : Type} :
    ∀ (xs : List (JsKey × α)) (m : List (JsKey × α)),
      xs.foldl (fun m kv => if mapHas m kv.1 then m else mapSet m kv.1 kv.2) m
        = xs.foldl insertIfAbsent m := by
  intro xs
  induction xs with
  | nil => intro m; rfl
  | cons kv rest ih =>
    intro m
    rw [List.foldl_cons, List.foldl_cons]
    have hone : (if mapHas m kv.1 then m else mapSet m kv.1 kv.2) = insertIfAbsent m kv := by
      unfold insertIfAbsent
      by_cases hh : mapHas m kv.1
      · simp [hh]
      · have hh2 : mapHas m kv.1 = false := by simpa using hh
        simp [hh2, mapSet_absent hh2]
    rw [hone, ih]

/-- The declared-participants loop of the source, skip-when-present then
Map.set, is the first-wins fold over the keyed pairs. -/
theorem foldl_skipOrSet_eq_decl (ps : List IxParticipant) (m : List (JsKey × IxParticipant)) :
    ps.foldl (fun m p => if mapHas m p.address then m else mapSet m p.address p) m
      = (ps.map (fun p => (p.address, p))).foldl insertIfAbsent m := by
  rw [List.foldl_map]
  have hfun : (fun (m : List (JsKey × IxParticipant)) (p : IxParticipant) =>
        if mapHas m p.address then m else mapSet m p.address p)
      = (fun m p => insertIfAbsent m (p.address, p)) := by
    funext m p
    unfold insertIfAbsent
    by_cases hh : mapHas m p.address
    · simp [hh]
    · have hh2 : mapHas m p.address = false := by simpa using hh
      simp [hh2, mapSet_absent hh2]
  rw [hfun]

/-- The switch body of the funds loop is Map.set of the claim-side pair. -/
theorem gatherFundsStep_eq (m : List (JsKey × IxFund)) (op : Operation) :
    gatherFundsStep m op = (match fundCandidate op with
      | some kv => mapSet m kv.1 kv.2
      | none => m) := by
  unfold gatherFundsStep fundCandidate
  split_ifs <;> rfl

/-- The funds scan of the source equals the Map.set fold over the claim-side
collected pairs. -/
theorem foldl_fundsStep_eq : ∀ (ops : List Operation) (m : List (JsKey × IxFund)),
    ops.foldl gatherFundsStep m
      = (ops.filterMap fundCandidate).foldl (fun m kv => mapSet m kv.1 kv.2) m := by
  intro ops
  induction ops with
  | nil => intro m; rfl
  | cons op rest ih =>
    intro m
    rw [List.foldl_cons, gatherFundsStep_eq]
    cases hc : fundCandidate op with
    | none =>
      rw [ih]
      simp [List.filterMap_cons, hc]
    | some kv =>
      rw [ih]
      simp [List.filterMap_cons, hc]

/-- The declared-funds loop of the source is the first-wins fold over the
keyed pairs. -/
theorem foldl_skipOrSet_eq_declFunds (fs : List IxFund) (m : List (JsKey × IxFund)) :
    fs.foldl (fun m f => if mapHas m f.asset_id then m else mapSet m f.asset_id ⟨f.asset_id, f.amount⟩) m
      = (fs.map (fun f => (f.asset_id, (⟨f.asset_id, f.amount⟩ : IxFund)))).foldl insertIfAbsent m := by
  rw [List.foldl_map]
  have hfun : (fun (m : List (JsKey × IxFund)) (f : IxFund) =>
        if mapHas m f.asset_id then m else mapSet m f.asset_id ⟨f.asset_id, f.amount⟩)
      = (fun m f => insertIfAbsent m (f.asset_id, (⟨f.asset_id, f.amount⟩ : IxFund))) := by
    funext m f
    unfold insertIfAbsent
    by_cases hh : mapHas m f.asset_id
    · simp [hh]
    · have hh2 : mapHas m f.asset_id = false := by simpa using hh
      simp [hh2, mapSet_absent hh2]
  rw [hfun]

/-- C6: the participant gathering of the interaction assembly is exactly the
first-wins fold over sender, payer, the addresses the operations touch, and
the declared participants (each address inserted at most once, first
occurrence winning); the fund gathering collects the transfer, mint and burn
pairs and then adds declared funds only for asset ids not already present, so
scanned funds take precedence; and interaction passes exactly these gathered
lists on for encoding. The derivations of an address from an asset or logic
identifier live outside src and enter as the function arguments. -/
theorem c6_interaction_assembly (assetAddr logicAddr : Option String → Option String)
    (ix : InteractionRequest) :
    gatherIxParticipants assetAddr logicAddr ix = gatherIxParticipantsSpec assetAddr logicAddr ix
    ∧ gatherIxFunds ix = gatherIxFundsSpec ix
    ∧ (interactionAssembly assetAddr logicAddr ix).participants
        = some (gatherIxParticipantsSpec assetAddr logicAddr ix)
    ∧ (interactionAssembly assetAddr logicAddr ix).funds = some (gatherIxFundsSpec ix) := by
  have hp : gatherIxParticipants assetAddr logicAddr ix
      = gatherIxParticipantsSpec assetAddr logicAddr ix := by
    unfold gatherIxParticipants gatherIxParticipantsSpec participantCandidates
    rw [List.foldl_cons]
    have hm0 : insertIfAbsent ([] : List (JsKey × IxParticipant))
        ((some ix.sender.address : JsKey),
          (⟨some ix.sender.address, lockMutate, false⟩ : IxParticipant))
        = [((some ix.sender.address : JsKey),
            (⟨some ix.sender.address, lockMutate, false⟩ : IxParticipant))] := by
      simp [insertIfAbsent, mapHas]
    rw [hm0, List.foldl_append, List.foldl_append]
    have hmut0 : allMut [((some ix.sender.address : JsKey),
        (⟨some ix.sender.address, lockMutate, false⟩ : IxParticipant))] := by
      intro e he
      simp at he
      subst he
      rfl
    have hpayer : (match ix.payer with
        | some p =>
          mapSet [((some ix.sender.address : JsKey),
              (⟨some ix.sender.address, lockMutate, false⟩ : IxParticipant))]
            (some p) (⟨some p, lockMutate, false⟩ : IxParticipant)
        | none => [((some ix.sender.address : JsKey),
            (⟨some ix.sender.address, lockMutate, false⟩ : IxParticipant))])
        = (match ix.payer with
            | some p => [((some p : JsKey), (⟨some p, lockMutate, false⟩ : IxParticipant))]
            | none => []).foldl insertIfAbsent
            [((some ix.sender.address : JsKey),
              (⟨some ix.sender.address, lockMutate, false⟩ : IxParticipant))] := by
      cases ix.payer with
      | none => rfl
      | some p =>
        rw [List.foldl_cons]
        exact mapSet_mut_eq_insert hmut0
    have hmut1 : allMut ((match ix.payer with
        | some p => [((some p : JsKey), (⟨some p, lockMutate, false⟩ : IxParticipant))]
        | none => []).foldl insertIfAbsent
        [((some ix.sender.address : JsKey),
          (⟨some ix.sender.address, lockMutate, false⟩ : IxParticipant))]) := by
      cases ix.payer with
      | none => exact hmut0
      | some p =>
        rw [List.foldl_cons]
        exact allMut_insert hmut0
    rw [hpayer]
    obtain ⟨hops, hmut2⟩ := foldl_gatherStep_eq assetAddr logicAddr ix.operations _ hmut1
    rw [hops]
    rw [foldl_skipOrSet_eq_decl]
  have hf : gatherIxFunds ix = gatherIxFundsSpec ix := by
    unfold gatherIxFunds gatherIxFundsSpec fundCandidatesScanned
    rw [foldl_fundsStep_eq]
    rw [foldl_skipOrSet_eq_declFunds]
  exact ⟨hp, hf, by simp [interactionAssembly, hp], by simp [interactionAssembly, hf]⟩

end MoiJs
